import Mathlib

/-!
Verification of the Soliton North Star Node core (src/src/core/trigonometric_fpt.ts
and the server in src/unnamed/part_000) against its natural-language specification.

The TypeScript code is shallowly embedded: JS numbers become real numbers (with an
explicit value type for the signed infinities produced by the tangent singularity
branch), JS `Map`s become association lists with in-place-overwrite `set` semantics,
the SHA-256 digest over the canonical JSON encoding (provided by the external
`crypto` library, not by this repository) is a parameter `hashFn` of the ledger
operations, and thrown exceptions become an `Option String` error component
returned next to the (unchanged) state.
-/

namespace Soliton

/-- A JS number value as produced by the triad computation: either a finite real
or one of the signed infinities returned by the tangent singularity branch. -/
inductive JsVal where
  | fin (x : ℝ)
  | posInf
  | negInf

/-- `TrigState` from trigonometric_fpt.ts: primary angle, wave magnitude,
phase offset, Unix timestamp. -/
structure TrigState where
  theta : ℝ
  amplitude : ℝ
  phase : ℝ
  timestamp : ℕ

/-- `TrigTriad` from trigonometric_fpt.ts. -/
structure TrigTriad where
  jolt : ℝ
  observer : ℝ
  vhitzee : JsVal

/-- `TrigonometricProcessor.computeTangent`: safe tangent with singularity
handling.  `cos_val = amplitude * cos(totalPhase)`, `sin_val = amplitude *
sin(totalPhase)`; if `|cos_val| < 1e-10` the result is `+Infinity` when
`sin_val > 0` and `-Infinity` otherwise; else `sin_val / cos_val`. -/
noncomputable def computeTangent (totalPhase amplitude : ℝ) : JsVal :=
  let cos_val := amplitude * Real.cos totalPhase
  let sin_val := amplitude * Real.sin totalPhase
  if |cos_val| < 1e-10 then
    (if sin_val > 0 then JsVal.posInf else JsVal.negInf)
  else JsVal.fin (sin_val / cos_val)

/-- `TrigonometricProcessor.computeTriad`: `jolt = amplitude * sin(theta + phase)`,
`observer = amplitude * cos(theta + phase)`, `vhitzee = computeTangent`. -/
noncomputable def computeTriad (state : TrigState) : TrigTriad :=
  let totalPhase := state.theta + state.phase
  { jolt := state.amplitude * Real.sin totalPhase
    observer := state.amplitude * Real.cos totalPhase
    vhitzee := computeTangent totalPhase state.amplitude }

/-- The opposition penalty inside `computeVitality`:
`Math.min(Math.abs(vhitzee) / 10.0, 0.3)`.  In JS, `Math.abs(±Infinity) / 10`
is `Infinity` and `Math.min(Infinity, 0.3) = 0.3`, so the non-finite cases
yield exactly `0.3` (the part_000 draft spells this out with an `isFinite`
test; both versions agree). -/
noncomputable def oppositionPenalty (vhitzee : JsVal) : ℝ :=
  match vhitzee with
  | JsVal.fin x => min (|x| / 10) 0.3
  | JsVal.posInf => 0.3
  | JsVal.negInf => 0.3

/-- `TrigonometricProcessor.computeVitality`: normalized jolt/observer, opposition
penalty, weighted sum, clamp of `raw + 0.5` to `[0.5, 1.5]` via
`Math.max(0.5, Math.min(1.5, _))`. -/
noncomputable def computeVitality (triad : TrigTriad) : ℝ :=
  let jolt_norm := min |triad.jolt| 1
  let observer_norm := min |triad.observer| 1
  let vitality_raw :=
    0.6 * observer_norm + 0.4 * jolt_norm - oppositionPenalty triad.vhitzee
  max 0.5 (min 1.5 (vitality_raw + 0.5))

/-- `PhasePacket` from trigonometric_fpt.ts. -/
structure PhasePacket where
  packet_version : String
  session_id : String
  node_id : String
  group_id : Option String
  state : TrigState
  triad : TrigTriad
  vitality : ℝ
  epsilon_d : ℝ
  snh_digest : String
  created_at : ℕ

/-- `TrigonometricProcessor` configuration: `epsilonBase` (default 0.0417) and
`damping` (default 0.1). -/
structure TrigonometricProcessor where
  epsilonBase : ℝ
  damping : ℝ

/-- `TrigonometricProcessor.createPhasePacket`: derives the triad and vitality from
the state and sets `epsilon_d = epsilonBase * vitality`.  `Date.now()` is the
`now` argument. -/
noncomputable def createPhasePacket (proc : TrigonometricProcessor) (state : TrigState)
    (nodeId sessionId snhDigest : String) (groupId : Option String) (now : ℕ) :
    PhasePacket :=
  let triad := computeTriad state
  let vitality := computeVitality triad
  let epsilon_d := proc.epsilonBase * vitality
  { packet_version := "1.0.0-trig"
    session_id := sessionId
    node_id := nodeId
    group_id := groupId
    state := state
    triad := triad
    vitality := vitality
    epsilon_d := epsilon_d
    snh_digest := snhDigest
    created_at := now }

/-- `retention_mode` of `ConsentSpec`. -/
inductive RetentionMode where
  | ephemeral | bounded | indefinite
deriving DecidableEq

/-- `revocation_policy` of `ConsentSpec`. -/
inductive RevocationPolicy where
  | stop_future_use | delete_raw | keep_aggregates
deriving DecidableEq

/-- `ConsentSpec` from trigonometric_fpt.ts. -/
structure ConsentSpec where
  scope : List String
  retention_mode : RetentionMode
  revocation_policy : RevocationPolicy
  prohibited : List String

/-- `neurodata_class` of `SovereignNeurodataHeader`. -/
inductive NeurodataClass where
  | raw | windowed | aggregate
deriving DecidableEq

/-- `sharing_level` of `SovereignNeurodataHeader`. -/
inductive SharingLevel where
  | local_only | group_resonance | research_aggregate
deriving DecidableEq

/-- `SovereignNeurodataHeader` from trigonometric_fpt.ts. -/
structure SovereignNeurodataHeader where
  snh_version : String
  session_id : String
  consent : ConsentSpec
  neurodata_class : NeurodataClass
  sharing_level : SharingLevel
  created_at : ℕ
  revocation_token : Option String

/-- `entry_type` of `LedgerEntry`. -/
inductive EntryType where
  | PHASE_AGGREGATE | GROUP_COHERENCE | PHASE_REVOCATION
deriving DecidableEq

/-- The `payload` object of a ledger entry, one variant per entry kind actually
constructed by the code: the genesis object, the observation payload built in
`logPhasePacket`, and the coherence payload built in `logGroupCoherence`. -/
inductive Payload where
  | genesis (message designation kernel : String) (trigonometric : Bool)
  | phase (session_id node_id : String) (group_id : Option String)
      (theta amplitude phase : ℝ) (jolt observer : ℝ) (vhitzee : JsVal)
      (vitality epsilon_d : ℝ) (snh_digest : String)
  | coherence (group_id : String) (node_count : ℕ)
      (mean_theta phase_variance synchrony_index : ℝ) (interpretation : String)

/-- `LedgerEntry` from trigonometric_fpt.ts. -/
structure LedgerEntry where
  entry_id : String
  entry_type : EntryType
  created_at : ℕ
  payload : Payload
  prev_hash : String
  hash : String

/-- The fields hashed by `computeHash`: the entry minus its `hash` field,
i.e. `{entry_id, entry_type, created_at, payload, prev_hash}`. -/
structure HashInput where
  entry_id : String
  entry_type : EntryType
  created_at : ℕ
  payload : Payload
  prev_hash : String

/-- The hashed fields of an entry (the entry minus its `hash` field). -/
def hashInput (e : LedgerEntry) : HashInput :=
  { entry_id := e.entry_id
    entry_type := e.entry_type
    created_at := e.created_at
    payload := e.payload
    prev_hash := e.prev_hash }

/-- `GroupPhaseState` from trigonometric_fpt.ts; `node_states` is a JS `Map`
modelled as an association list in insertion order. -/
structure GroupPhaseState where
  group_id : String
  node_states : List (String × TrigState)
  mean_theta : ℝ
  phase_variance : ℝ
  synchrony_index : ℝ
  timestamp : ℕ

/-- The mutable fields of a `SolitonRegistry`: the chained ledger and the two
JS `Map`s (modelled as association lists in insertion order). -/
structure RegistryState where
  ledger : List LedgerEntry
  nodeStates : List (String × TrigState)
  groupStates : List (String × GroupPhaseState)

/-- JS `Map.set`: overwrite an existing key in place (keeping its insertion
position) or append a new binding at the end. -/
def mapSet {α : Type} : List (String × α) → String → α → List (String × α)
  | [], k, v => [(k, v)]
  | (k0, v0) :: rest, k, v =>
      if k0 = k then (k, v) :: rest else (k0, v0) :: mapSet rest k v

/-- JS `Map.get`: first binding for the key, if any. -/
def mapGet {α : Type} : List (String × α) → String → Option α
  | [], _ => none
  | (k0, v0) :: rest, k => if k0 = k then some v0 else mapGet rest k

/-- The genesis sentinel `prev_hash`: `'0'.repeat(64)`. -/
def zeros64 : String := String.mk (List.replicate 64 '0')

/-- The fixed genesis payload object from `createGenesisEntry`. -/
def genesisPayload : Payload :=
  Payload.genesis "North Star Seed Node - Geometric Witness Activated"
    "Nᵒᵣᵗʰ‑001" "Ił7" true

/-- `SolitonRegistry.createGenesisEntry`, with `Date.now()` passed as `now` and
the SHA-256-over-canonical-JSON digest passed as `hashFn`. -/
def createGenesisEntry (hashFn : HashInput → String) (now : ℕ) : LedgerEntry :=
  { entry_id := "genesis-north-001"
    entry_type := EntryType.PHASE_AGGREGATE
    created_at := now
    payload := genesisPayload
    prev_hash := zeros64
    hash := hashFn
      { entry_id := "genesis-north-001"
        entry_type := EntryType.PHASE_AGGREGATE
        created_at := now
        payload := genesisPayload
        prev_hash := zeros64 } }

/-- The `SolitonRegistry` constructor: a fresh registry holding only the genesis
entry. -/
def initState (hashFn : HashInput → String) (now : ℕ) : RegistryState :=
  { ledger := [createGenesisEntry hashFn now]
    nodeStates := []
    groupStates := [] }

/-- The scope allow-list inside `validateConsent`. -/
def allowedScopes : List String := ["group_resonance_aggregate", "research_aggregate"]

/-- `SolitonRegistry.validateConsent`: the consent scope must intersect the
allow-list. -/
def validateConsent (snh : SovereignNeurodataHeader) : Bool :=
  snh.consent.scope.any (fun s => allowedScopes.contains s)

/-- `SolitonRegistry.interpretCoherence`. -/
noncomputable def interpretCoherence (synchrony : ℝ) : String :=
  if synchrony > 0.8 then "COLLECTIVE_COIL_ENGAGED"
  else if synchrony > 0.6 then "HIGH_COHERENCE"
  else if synchrony > 0.4 then "MODERATE_COHERENCE"
  else "LOW_COHERENCE"

/-- `Math.atan2 y x`, i.e. the argument of the complex number `x + y i`. -/
noncomputable def atan2 (y x : ℝ) : ℝ := Complex.arg (Complex.mk x y)

/-- `this.ledger[this.ledger.length - 1].hash`: the hash of the current tail.
The ledger of every reachable registry is nonempty (the constructor pushes the
genesis entry), so the empty-list fallback value is never used. -/
def tailHash (ledger : List LedgerEntry) : String :=
  match ledger.getLast? with
  | some e => e.hash
  | none => ""

/-- `SolitonRegistry.logGroupCoherence`: appends a `GROUP_COHERENCE` entry whose
payload snapshots the group state, chained onto the current tail.  The entry id
produced from `Date.now()` and `Math.random()` is the `eid` argument. -/
noncomputable def logGroupCoherence (hashFn : HashInput → String) (eid : String)
    (groupState : GroupPhaseState) (s : RegistryState) : RegistryState :=
  let payload : Payload :=
    Payload.coherence groupState.group_id groupState.node_states.length
      groupState.mean_theta groupState.phase_variance groupState.synchrony_index
      (interpretCoherence groupState.synchrony_index)
  let entry : LedgerEntry :=
    { entry_id := eid
      entry_type := EntryType.GROUP_COHERENCE
      created_at := groupState.timestamp
      payload := payload
      prev_hash := tailHash s.ledger
      hash := hashFn
        { entry_id := eid
          entry_type := EntryType.GROUP_COHERENCE
          created_at := groupState.timestamp
          payload := payload
          prev_hash := tailHash s.ledger } }
  { s with ledger := s.ledger ++ [entry] }

/-- `SolitonRegistry.updateGroupCoherence`: collects **all** known node states
(the source iterates `this.nodeStates.forEach` with the comment "In real
implementation, check if node belongs to group", and snapshots
`this.nodeStates` through `filter(([_, state]) => true)`), early-returns when
there are none, computes the circular mean / variance / synchrony index, stores
the group state, and appends a coherence entry. -/
noncomputable def updateGroupCoherence (hashFn : HashInput → String) (ceid : String)
    (now : ℕ) (groupId : String) (s : RegistryState) : RegistryState :=
  let groupNodes : List TrigState := s.nodeStates.map Prod.snd
  if groupNodes.length = 0 then s
  else
    let sin_sum := groupNodes.foldl (fun sum st => sum + Real.sin st.theta) 0
    let cos_sum := groupNodes.foldl (fun sum st => sum + Real.cos st.theta) 0
    let mean_theta := atan2 sin_sum cos_sum
    let deviations := groupNodes.map (fun st =>
      let diff := st.theta - mean_theta
      min |diff| (2 * Real.pi - |diff|))
    let phase_variance :=
      (deviations.foldl (fun sum d => sum + d * d) 0) / (deviations.length : ℝ)
    let synchrony_index := 1 / (1 + phase_variance)
    let groupState : GroupPhaseState :=
      { group_id := groupId
        node_states := s.nodeStates.filter (fun _ => true)
        mean_theta := mean_theta
        phase_variance := phase_variance
        synchrony_index := synchrony_index
        timestamp := now }
    logGroupCoherence hashFn ceid groupState
      { s with groupStates := mapSet s.groupStates groupId groupState }

/-- `SolitonRegistry.logPhasePacket`.  The two `throw`s become a `some`
error message returned beside the untouched input state (in the source both
throws happen before any mutation).  On success: append the observation entry
(id `eid`), update the node-state map, and — when the packet carries a group id
— run `updateGroupCoherence` (coherence entry id `ceid`, `Date.now()` = `now`),
returning the new state and `none`. -/
noncomputable def logPhasePacket (hashFn : HashInput → String) (eid ceid : String)
    (now : ℕ) (packet : PhasePacket) (snh : SovereignNeurodataHeader)
    (s : RegistryState) : RegistryState × Option String :=
  if !validateConsent snh then (s, some "Consent validation failed")
  else if snh.neurodata_class = NeurodataClass.raw then
    (s, some "Raw neurodata cannot be logged to registry")
  else
    let payload : Payload :=
      Payload.phase packet.session_id packet.node_id packet.group_id
        packet.state.theta packet.state.amplitude packet.state.phase
        packet.triad.jolt packet.triad.observer packet.triad.vhitzee
        packet.vitality packet.epsilon_d packet.snh_digest
    let entry : LedgerEntry :=
      { entry_id := eid
        entry_type := EntryType.PHASE_AGGREGATE
        created_at := packet.created_at
        payload := payload
        prev_hash := tailHash s.ledger
        hash := hashFn
          { entry_id := eid
            entry_type := EntryType.PHASE_AGGREGATE
            created_at := packet.created_at
            payload := payload
            prev_hash := tailHash s.ledger } }
    let s1 : RegistryState := { s with ledger := s.ledger ++ [entry] }
    let s2 : RegistryState :=
      { s1 with nodeStates := mapSet s1.nodeStates packet.node_id packet.state }
    match packet.group_id with
    | some gid => (updateGroupCoherence hashFn ceid now gid s2, none)
    | none => (s2, none)

/-- The loop body of `SolitonRegistry.verifyIntegrity`: starting with the entry
at index `i - 1` as `prevEntry`, check each subsequent entry's `prev_hash`
linkage and hash recomputation; return the first violating index. -/
def firstViolationAux (hashFn : HashInput → String) :
    LedgerEntry → List LedgerEntry → ℕ → Option ℕ
  | _, [], _ => none
  | prevEntry, entry :: rest, i =>
      if entry.prev_hash ≠ prevEntry.hash then some i
      else if entry.hash ≠ hashFn (hashInput entry) then some i
      else firstViolationAux hashFn entry rest (i + 1)

/-- The index reported by the `verifyIntegrity` loop (`none` when the walk from
index 1 finds no violation).  The genesis entry at index 0 is only used as the
predecessor of index 1; its own hash is never recomputed. -/
def firstViolation (hashFn : HashInput → String) (ledger : List LedgerEntry) :
    Option ℕ :=
  match ledger with
  | [] => none
  | e :: rest => firstViolationAux hashFn e rest 1

/-- `SolitonRegistry.verifyIntegrity`: true iff the walk finds no violation. -/
def verifyIntegrity (hashFn : HashInput → String) (ledger : List LedgerEntry) :
    Bool :=
  (firstViolation hashFn ledger).isNone

/-- Linkage between two adjacent ledger entries: the later entry's `prev_hash`
equals the earlier entry's `hash`. -/
def linkOk (a b : LedgerEntry) : Prop := b.prev_hash = a.hash

/-- The chain-linkage half of the ledger invariant. -/
def chainOk (ledger : List LedgerEntry) : Prop := List.Chain' linkOk ledger

/-- The hash-correctness half of the ledger invariant: every entry's `hash`
field is the digest of its remaining fields. -/
def hashOk (hashFn : HashInput → String) (ledger : List LedgerEntry) : Prop :=
  ∀ e ∈ ledger, e.hash = hashFn (hashInput e)

/-- Both integrity checks made by the `verifyIntegrity` loop for one adjacent
pair of entries. -/
def entryOk (hashFn : HashInput → String) (prevEntry entry : LedgerEntry) : Prop :=
  entry.prev_hash = prevEntry.hash ∧ entry.hash = hashFn (hashInput entry)

/-- The full ledger invariant: nonempty, chained, and hash-correct. -/
def Inv (hashFn : HashInput → String) (s : RegistryState) : Prop :=
  s.ledger ≠ [] ∧ chainOk s.ledger ∧ hashOk hashFn s.ledger

/-- The registry states reachable through the public API: a freshly constructed
registry, and any state produced by a (successful or failed) `logPhasePacket`
call on a reachable state.  A failed call returns the unchanged input state, so
only successful calls add a constructor. -/
inductive Reach (hashFn : HashInput → String) : RegistryState → Prop where
  | init (now : ℕ) : Reach hashFn (initState hashFn now)
  | log {s s' : RegistryState} {eid ceid : String} {now : ℕ}
      {packet : PhasePacket} {snh : SovereignNeurodataHeader}
      (hs : Reach hashFn s)
      (hstep : logPhasePacket hashFn eid ceid now packet snh s = (s', none)) :
      Reach hashFn s'

/-- Tamper with the entry at index `i`: replace its `payload` while keeping
every other field (in particular its stored `hash` and `prev_hash`) and every
other entry unchanged.  Out-of-range indices leave the ledger unchanged. -/
def corruptPayload : List LedgerEntry → ℕ → Payload → List LedgerEntry
  | [], _, _ => []
  | e :: rest, 0, p => { e with payload := p } :: rest
  | e :: rest, i + 1, p => e :: corruptPayload rest i p

/-- The spec-side consent condition of the ConsentGate: the descriptor's scope
intersects the fixed allow-list `{group_resonance_aggregate,
research_aggregate}`. -/
def scopeIntersects (snh : SovereignNeurodataHeader) : Prop :=
  ∃ sc ∈ snh.consent.scope,
    sc = "group_resonance_aggregate" ∨ sc = "research_aggregate"

/-- An entry of the legacy `ledger.json` file written by the server's
`POST /aggregate` handler in part_000: `{timestamp, node_id, vitality,
snh_digest}` (the vitality aggregate object is opaque here). -/
structure LegacyEntry where
  timestamp : ℕ
  node_id : String
  vitality : String
  snh_digest : String

/-- The request body read by the `POST /revoke` handler in part_000. -/
structure RevokeRequest where
  revocation_token : Option String
  session_id : Option String

/-- The response produced by the `POST /revoke` handler. -/
inductive RevokeResponse where
  | badRequest (error : String)
  | ok (status message : String) (session_id : Option String)

/-- The `POST /revoke` handler from part_000.  Its only inputs besides the
request are the two ledgers the server owns (the legacy `ledger.json` contents
and the geometric registry); the handler reads and writes neither — it
validates the token and acknowledges ("In full implementation: find and mark
entries as revoked.  For now, just acknowledge"). -/
def revokeHandler (ledger : List LegacyEntry) (geo : RegistryState)
    (req : RevokeRequest) : List LegacyEntry × RegistryState × RevokeResponse :=
  match req.revocation_token with
  | none => (ledger, geo, RevokeResponse.badRequest "Revocation token required")
  | some _ => (ledger, geo, RevokeResponse.ok "revoked" "Revocation honored" req.session_id)

/-- A concrete digest function used to instantiate the hash parameter in
witnesses and counterexamples; it stands in for SHA-256 over the canonical
JSON encoding, and is injective on the payloads occurring in the concrete
scenarios below. -/
def demoHash (hi : HashInput) : String :=
  match hi.payload with
  | Payload.genesis message _ _ _ => "G:" ++ message
  | Payload.phase sid _ _ _ _ _ _ _ _ _ _ _ => "P:" ++ sid
  | Payload.coherence gid _ _ _ _ _ => "C:" ++ gid

/-- A consent header the gate accepts: aggregate data, scope on the
allow-list. -/
def snhOk : SovereignNeurodataHeader :=
  { snh_version := "1.0.0"
    session_id := "sess"
    consent :=
      { scope := ["group_resonance_aggregate"]
        retention_mode := RetentionMode.bounded
        revocation_policy := RevocationPolicy.stop_future_use
        prohibited := ["identity_linkage"] }
    neurodata_class := NeurodataClass.aggregate
    sharing_level := SharingLevel.group_resonance
    created_at := 0
    revocation_token := none }

/-- A consent header carrying raw neurodata (scope is allowed, classification
is not). -/
def snhRaw : SovereignNeurodataHeader :=
  { snhOk with neurodata_class := NeurodataClass.raw }

/-- A concrete phase state for node A. -/
noncomputable def stateA : TrigState :=
  { theta := 0, amplitude := 1, phase := 0, timestamp := 0 }

/-- A concrete phase state for node B. -/
noncomputable def stateB : TrigState :=
  { theta := 1, amplitude := 1, phase := 0, timestamp := 0 }

/-- An observation packet from node A attributed to group G1. -/
noncomputable def packetA : PhasePacket :=
  { packet_version := "1.0.0-trig"
    session_id := "sessA"
    node_id := "A"
    group_id := some "G1"
    state := stateA
    triad := { jolt := 0, observer := 1, vhitzee := JsVal.fin 0 }
    vitality := 1
    epsilon_d := 0.0417
    snh_digest := "d"
    created_at := 1 }

/-- An observation packet from node B attributed to group G2. -/
noncomputable def packetB : PhasePacket :=
  { packetA with
    session_id := "sessB"
    node_id := "B"
    group_id := some "G2"
    state := stateB
    created_at := 2 }

/-- An observation packet carrying no group id. -/
noncomputable def packetNog : PhasePacket :=
  { packetA with
    session_id := "sessN"
    node_id := "N"
    group_id := none }

/-- Registry state after accepting `packetA` (node A, group G1) on a fresh
registry. -/
noncomputable def sG1 : RegistryState :=
  (logPhasePacket demoHash "e1" "c1" 1 packetA snhOk (initState demoHash 0)).1

/-- Registry state after additionally accepting `packetB` (node B, group
G2). -/
noncomputable def sG2 : RegistryState :=
  (logPhasePacket demoHash "e2" "c2" 2 packetB snhOk sG1).1

/-- Registry state after accepting the group-less `packetNog` on a fresh
registry: ledger = genesis entry followed by one observation entry. -/
noncomputable def sNog : RegistryState :=
  (logPhasePacket demoHash "eN" "cN" 1 packetNog snhOk (initState demoHash 0)).1

/-- The genesis payload with its message corrupted (one field changed, all
other fields and all hashes left untouched). -/
def corruptedGenesisPayload : Payload :=
  Payload.genesis "CORRUPTED" "Nᵒᵣᵗʰ‑001" "Ił7" true

/-- The observation payload of `sNog`'s entry 1 with its session id
corrupted. -/
noncomputable def corruptedPhasePayload : Payload :=
  Payload.phase "TAMPERED" "N" none 0 1 0 0 1 (JsVal.fin 0) 1 0.0417 "d"

/-- The state used by the C7 counterexample: zero amplitude makes both
`sin_val` and `cos_val` vanish, entering the singularity branch with
`sin_val = 0`. -/
noncomputable def stateZero : TrigState :=
  { theta := 0, amplitude := 0, phase := 0, timestamp := 0 }

/-! ## Theorems -/

/-- The clamp at the end of `computeVitality` keeps every result inside
`[0.5, 1.5]`, whatever the triad. -/
theorem vitality_mem (t : TrigTriad) :
    0.5 ≤ computeVitality t ∧ computeVitality t ≤ 1.5 := by
  refine ⟨le_max_left _ _, ?_⟩
  exact max_le (by norm_num) (min_le_left _ _)

/-- Claim C6: for every triad (jolt, observer, vhitzee), whether vhitzee is
finite or infinite, `computeVitality` returns a value in the closed interval
`[0.5, 1.5]`; and whenever vhitzee is non-finite (one of the two signed
infinities), the opposition penalty used in the computation is exactly 0.3. -/
theorem c6_vitality_bounds (t : TrigTriad) :
    (0.5 ≤ computeVitality t ∧ computeVitality t ≤ 1.5) ∧
    oppositionPenalty JsVal.posInf = 0.3 ∧ oppositionPenalty JsVal.negInf = 0.3 :=
  ⟨vitality_mem t, rfl, rfl⟩

/-- Claim C7, corrected: `computeTriad` sets `vhitzee = jolt/observer` when
`|observer| ≥ 1e-10`; when `|observer| < 1e-10` it sets `vhitzee = +∞` if
`jolt > 0` (strictly) and `-∞` otherwise — in particular the boundary case
`jolt = 0` yields `-∞`, not the `+∞` the claim states. -/
theorem c7_amended_tangent_branches (state : TrigState) :
    (computeTriad state).vhitzee =
      if |(computeTriad state).observer| < 1e-10 then
        (if 0 < (computeTriad state).jolt then JsVal.posInf else JsVal.negInf)
      else JsVal.fin ((computeTriad state).jolt / (computeTriad state).observer) := rfl

/-- Claim C7, counterexample: at the zero-amplitude state the triad has
`jolt = 0` and `|observer| < 1e-10`, yet `vhitzee` is `-∞` — the claim's
convention (`jolt ≥ 0` gives `+∞`) does not hold on the code, which tests
`sin_val > 0` strictly. -/
theorem c7_counterexample :
    (computeTriad stateZero).jolt = 0 ∧
    |(computeTriad stateZero).observer| < 1e-10 ∧
    (computeTriad stateZero).vhitzee = JsVal.negInf ∧
    (computeTriad stateZero).vhitzee ≠ JsVal.posInf := by
  have hj : (computeTriad stateZero).jolt = 0 := by
    simp [computeTriad, stateZero]
  have ho : |(computeTriad stateZero).observer| < 1e-10 := by
    simp [computeTriad, stateZero]
    norm_num
  have hv : (computeTriad stateZero).vhitzee = JsVal.negInf := by
    simp [computeTriad, computeTangent, stateZero]
    norm_num
  exact ⟨hj, ho, hv, by rw [hv]; exact fun hcon => JsVal.noConfusion hcon⟩

/-- Claim C9: for every `theta` (and timestamp), the triad computed from a
state with `amplitude = 1` and `phase = 0` satisfies
`jolt^2 + observer^2 = amplitude^2 = 1` — exactly, in the real-number model,
so in particular within floating tolerance, with no singularity exception
needed. -/
theorem c9_pythagorean_identity (theta : ℝ) (ts : ℕ) :
    (computeTriad { theta := theta, amplitude := 1, phase := 0, timestamp := ts }).jolt ^ 2 +
      (computeTriad { theta := theta, amplitude := 1, phase := 0, timestamp := ts }).observer ^ 2
      = 1 := by
  simp only [computeTriad, one_mul, add_zero]
  exact Real.sin_sq_add_cos_sq theta

/-- Claim C10: `createPhasePacket` always sets
`epsilon_d = epsilonBase * vitality`, and under the default base 0.0417 the
vitality clamp confines `epsilon_d` to `[0.0417 * 0.5, 0.0417 * 1.5]`. -/
theorem c10_epsilon_d_scaling (eb damp : ℝ) (state : TrigState)
    (nid sid dig : String) (gid : Option String) (now : ℕ) :
    (createPhasePacket ⟨eb, damp⟩ state nid sid dig gid now).epsilon_d =
      eb * (createPhasePacket ⟨eb, damp⟩ state nid sid dig gid now).vitality ∧
    0.0417 * 0.5 ≤ (createPhasePacket ⟨0.0417, damp⟩ state nid sid dig gid now).epsilon_d ∧
    (createPhasePacket ⟨0.0417, damp⟩ state nid sid dig gid now).epsilon_d ≤ 0.0417 * 1.5 := by
  have hv := vitality_mem (computeTriad state)
  have he : (createPhasePacket ⟨0.0417, damp⟩ state nid sid dig gid now).epsilon_d
      = 0.0417 * computeVitality (computeTriad state) := rfl
  refine ⟨rfl, ?_, ?_⟩
  · rw [he]
    exact mul_le_mul_of_nonneg_left hv.1 (by norm_num)
  · rw [he]
    exact mul_le_mul_of_nonneg_left hv.2 (by norm_num)

/-- Appending an entry whose `prev_hash` is the current tail hash and whose
`hash` is the digest of its own fields preserves the ledger invariant. -/
theorem inv_append (hashFn : HashInput → String) (L : List LedgerEntry)
    (e : LedgerEntry) (_hne : L ≠ []) (hchain : chainOk L) (hhash : hashOk hashFn L)
    (hprev : e.prev_hash = tailHash L) (heh : e.hash = hashFn (hashInput e)) :
    L ++ [e] ≠ [] ∧ chainOk (L ++ [e]) ∧ hashOk hashFn (L ++ [e]) := by
  refine ⟨by simp, ?_, ?_⟩
  · refine List.Chain'.append hchain (List.chain'_singleton e) ?_
    intro x hx y hy
    simp only [List.head?_cons, Option.mem_def, Option.some.injEq] at hy
    subst hy
    have hlast : L.getLast? = some x := hx
    show e.prev_hash = x.hash
    rw [hprev]
    simp [tailHash, hlast]
  · intro e' he'
    rcases List.mem_append.1 he' with hmem | hmem
    · exact hhash e' hmem
    · simp only [List.mem_singleton] at hmem
      subst hmem
      exact heh

/-- Invariance transfer for any operation whose resulting ledger is the old
ledger with one well-formed entry appended. -/
theorem inv_push (hashFn : HashInput → String) (s : RegistryState)
    (e : LedgerEntry) (h : Inv hashFn s) (hprev : e.prev_hash = tailHash s.ledger)
    (heh : e.hash = hashFn (hashInput e)) (t : RegistryState)
    (ht : t.ledger = s.ledger ++ [e]) : Inv hashFn t := by
  obtain ⟨hne, hchain, hhash⟩ := h
  have h2 := inv_append hashFn s.ledger e hne hchain hhash hprev heh
  exact ⟨ht ▸ h2.1, ht ▸ h2.2.1, ht ▸ h2.2.2⟩

/-- `logGroupCoherence` preserves the ledger invariant: the appended coherence
entry is chained onto the tail and carries the digest of its own fields. -/
theorem inv_logGroupCoherence (hashFn : HashInput → String) (eid : String)
    (gs : GroupPhaseState) (s : RegistryState) (h : Inv hashFn s) :
    Inv hashFn (logGroupCoherence hashFn eid gs s) := by
  refine inv_push hashFn s _ h ?_ ?_ _ rfl <;> rfl

/-- `updateGroupCoherence` preserves the ledger invariant: it either returns the
state unchanged (empty node map) or defers to `logGroupCoherence` after a
group-state map update that does not touch the ledger. -/
theorem inv_updateGroupCoherence (hashFn : HashInput → String) (ceid : String)
    (now : ℕ) (gid : String) (s : RegistryState) (h : Inv hashFn s) :
    Inv hashFn (updateGroupCoherence hashFn ceid now gid s) := by
  simp only [updateGroupCoherence]
  split
  · exact h
  · exact inv_logGroupCoherence hashFn ceid _ _ ⟨h.1, h.2.1, h.2.2⟩

/-- `logPhasePacket` preserves the ledger invariant, both on rejection (state
unchanged) and on acceptance (one chained observation entry, possibly followed
by a chained coherence entry). -/
theorem inv_logPhasePacket (hashFn : HashInput → String) (eid ceid : String)
    (now : ℕ) (packet : PhasePacket) (snh : SovereignNeurodataHeader)
    (s s' : RegistryState) (o : Option String) (h : Inv hashFn s)
    (hstep : logPhasePacket hashFn eid ceid now packet snh s = (s', o)) :
    Inv hashFn s' := by
  unfold logPhasePacket at hstep
  split at hstep
  · cases hstep
    exact h
  split at hstep
  · cases hstep
    exact h
  cases hg : packet.group_id with
  | some gid =>
      simp only [hg] at hstep
      cases hstep
      apply inv_updateGroupCoherence
      refine inv_push hashFn s _ h ?_ ?_ _ rfl <;> rfl
  | none =>
      simp only [hg] at hstep
      cases hstep
      refine inv_push hashFn s _ h ?_ ?_ _ rfl <;> rfl

/-- Every reachable registry state satisfies the ledger invariant. -/
theorem reach_inv (hashFn : HashInput → String) (s : RegistryState)
    (h : Reach hashFn s) : Inv hashFn s := by
  induction h with
  | init now =>
      refine ⟨by simp [initState], List.chain'_singleton _, ?_⟩
      intro e he
      simp only [initState, List.mem_singleton] at he
      subst he
      rfl
  | log hs hstep ih => exact inv_logPhasePacket _ _ _ _ _ _ _ _ _ ih hstep

/-- Adjacent entries of a chained ledger are linked: positional version of
`chainOk` via `get?`. -/
theorem chain_pairs {L : List LedgerEntry} (hchain : chainOk L) (i : ℕ)
    (a b : LedgerEntry) (ha : L.get? i = some a) (hb : L.get? (i + 1) = some b) :
    b.prev_hash = a.hash := by
  have hib : i + 1 < L.length := (List.get?_eq_some.1 hb).1
  have hia : i < L.length := by omega
  have hlt : i < L.length - 1 := by omega
  have h := (List.chain'_iff_get.1 hchain) i hlt
  rw [List.get?_eq_get hia] at ha
  rw [List.get?_eq_get hib] at hb
  cases ha
  cases hb
  exact h

/-- Claim C2: every reachable ledger state satisfies the chain invariant — each
entry's `prev_hash` equals its predecessor's `hash`, and each entry's `hash`
equals the digest (`hashFn`, standing for SHA-256 over the canonical encoding)
of the entry minus its hash field; `logPhasePacket`, the only append path,
preserves this (shown by induction over `Reach`). -/
theorem c2_chain_invariant (hashFn : HashInput → String) (s : RegistryState)
    (h : Reach hashFn s) :
    (∀ i a b, s.ledger.get? i = some a → s.ledger.get? (i + 1) = some b →
      b.prev_hash = a.hash) ∧
    (∀ e ∈ s.ledger, e.hash = hashFn (hashInput e)) := by
  obtain ⟨-, hchain, hhash⟩ := reach_inv hashFn s h
  exact ⟨fun i a b ha hb => chain_pairs hchain i a b ha hb, hhash⟩

/-- Witness for C2: the freshly constructed registry is reachable, and the
genesis entry's stored hash is the digest of its hashed fields. -/
theorem c2_witness :
    (createGenesisEntry demoHash 0).hash =
      demoHash (hashInput (createGenesisEntry demoHash 0)) :=
  (c2_chain_invariant demoHash _ (Reach.init 0)).2 _ (by simp [initState])

/-- The verification walk reports nothing when every adjacent pair passes both
checks. -/
theorem aux_none (hashFn : HashInput → String) :
    ∀ (rest : List LedgerEntry) (prev : LedgerEntry) (n : ℕ),
      List.Chain linkOk prev rest →
      (∀ e ∈ rest, e.hash = hashFn (hashInput e)) →
      firstViolationAux hashFn prev rest n = none := by
  intro rest
  induction rest with
  | nil => intro prev n _ _; rfl
  | cons e rest ih =>
      intro prev n hchain hhash
      cases hchain with
      | cons hlink hchain2 =>
          have h1 : ¬ e.prev_hash ≠ prev.hash := fun hc => hc hlink
          have h2 : ¬ e.hash ≠ hashFn (hashInput e) :=
            fun hc => hc (hhash e (List.mem_cons_self e rest))
          simp only [firstViolationAux, if_neg h1, if_neg h2]
          exact ih e (n + 1) hchain2 (fun x hx => hhash x (List.mem_cons_of_mem e hx))

/-- `verifyIntegrity` returns true on every ledger satisfying the invariant —
in particular on every untouched reachable ledger. -/
theorem verify_of_inv (hashFn : HashInput → String) (s : RegistryState)
    (h : Inv hashFn s) : verifyIntegrity hashFn s.ledger = true := by
  obtain ⟨hne, hchain, hhash⟩ := h
  cases hL : s.ledger with
  | nil => exact absurd hL hne
  | cons e rest =>
      rw [hL] at hchain hhash
      show (firstViolationAux hashFn e rest 1).isNone = true
      rw [aux_none hashFn rest e 1 hchain
        (fun x hx => hhash x (List.mem_cons_of_mem e hx))]
      rfl

/-- The verification walk reports exactly index `n + k` when the first `k`
adjacent pairs pass and pair `k` fails. -/
theorem aux_some (hashFn : HashInput → String) :
    ∀ (rest : List LedgerEntry) (prev : LedgerEntry) (n k : ℕ),
      k < rest.length →
      (∀ j a b, j < k → (prev :: rest).get? j = some a → rest.get? j = some b →
        entryOk hashFn a b) →
      (∀ a b, (prev :: rest).get? k = some a → rest.get? k = some b →
        ¬ entryOk hashFn a b) →
      firstViolationAux hashFn prev rest n = some (n + k) := by
  intro rest
  induction rest with
  | nil => intro prev n k hk _ _; simp at hk
  | cons e rest ih =>
      intro prev n k hk hgood hbad
      cases k with
      | zero =>
          have hb := hbad prev e rfl rfl
          by_cases h1 : e.prev_hash = prev.hash
          · have h2 : e.hash ≠ hashFn (hashInput e) := fun heq => hb ⟨h1, heq⟩
            have h1n : ¬ e.prev_hash ≠ prev.hash := fun hc => hc h1
            simp only [firstViolationAux, if_neg h1n, if_pos h2, Nat.add_zero]
          · simp only [firstViolationAux, if_pos h1, Nat.add_zero]
      | succ k2 =>
          have hok := hgood 0 prev e (Nat.succ_pos k2) rfl rfl
          have h1 : ¬ e.prev_hash ≠ prev.hash := fun hc => hc hok.1
          have h2 : ¬ e.hash ≠ hashFn (hashInput e) := fun hc => hc hok.2
          simp only [firstViolationAux, if_neg h1, if_neg h2]
          have hk2 : k2 < rest.length := by
            simp only [List.length_cons] at hk
            omega
          have hrec := ih e (n + 1) k2 hk2
            (fun j a b hj ha hb => hgood (j + 1) a b (by omega) ha hb)
            (fun a b ha hb => hbad a b ha hb)
          rw [hrec]
          congr 1
          omega

/-- Corrupting an entry's payload does not change the ledger's length. -/
theorem corrupt_length : ∀ (L : List LedgerEntry) (i : ℕ) (p : Payload),
    (corruptPayload L i p).length = L.length := by
  intro L
  induction L with
  | nil => intro i p; rfl
  | cons e rest ih =>
      intro i p
      cases i with
      | zero => rfl
      | succ i2 => simp [corruptPayload, ih i2 p]

/-- Entries strictly before the corrupted index are unchanged. -/
theorem corrupt_get_lt : ∀ (L : List LedgerEntry) (i j : ℕ) (p : Payload), j < i →
    (corruptPayload L i p).get? j = L.get? j := by
  intro L
  induction L with
  | nil => intro i j p _; rfl
  | cons e rest ih =>
      intro i j p hji
      cases i with
      | zero => omega
      | succ i2 =>
          cases j with
          | zero => rfl
          | succ j2 =>
              show (corruptPayload rest i2 p).get? j2 = rest.get? j2
              exact ih i2 j2 p (by omega)

/-- The entry at the corrupted index keeps all fields except its payload. -/
theorem corrupt_get_self : ∀ (L : List LedgerEntry) (i : ℕ) (p : Payload)
    (e : LedgerEntry), L.get? i = some e →
    (corruptPayload L i p).get? i = some { e with payload := p } := by
  intro L
  induction L with
  | nil => intro i p e h; simp at h
  | cons e0 rest ih =>
      intro i p e h
      cases i with
      | zero =>
          have h2 := Option.some.inj h
          subst h2
          rfl
      | succ i2 => exact ih i2 p e h

/-- Both verification checks hold on each adjacent pair of an invariant-
satisfying ledger. -/
theorem inv_pair (hashFn : HashInput → String) (L : List LedgerEntry)
    (hchain : chainOk L) (hhash : hashOk hashFn L) (j : ℕ) (a b : LedgerEntry)
    (ha : L.get? j = some a) (hb : L.get? (j + 1) = some b) :
    entryOk hashFn a b :=
  ⟨chain_pairs hchain j a b ha hb, hhash b (List.get?_mem hb)⟩

/-- Corrupting the payload of the entry at index `i ≥ 1` of an invariant-
satisfying ledger (so that its recomputed digest differs from its stored hash)
makes the verification walk stop exactly at index `i`. -/
theorem firstViolation_corrupt (hashFn : HashInput → String)
    (L : List LedgerEntry) (i : ℕ) (p : Payload) (hchain : chainOk L)
    (hhash : hashOk hashFn L) (hi : 1 ≤ i) (hlen : i < L.length)
    (hne : ∀ e, L.get? i = some e →
      hashFn (hashInput { e with payload := p }) ≠ e.hash) :
    firstViolation hashFn (corruptPayload L i p) = some i := by
  cases L with
  | nil => simp at hlen
  | cons e0 rest =>
      obtain ⟨k, rfl⟩ : ∃ k, i = k + 1 := ⟨i - 1, by omega⟩
      show firstViolationAux hashFn e0 (corruptPayload rest k p) 1 = some (k + 1)
      have hklen : k < rest.length := by
        simp only [List.length_cons] at hlen
        omega
      have hk : k < (corruptPayload rest k p).length := by
        rw [corrupt_length]
        exact hklen
      obtain ⟨ek, hek⟩ : ∃ ek, rest.get? k = some ek :=
        ⟨rest.get ⟨k, hklen⟩, List.get?_eq_get hklen⟩
      have hgood : ∀ j a b, j < k →
          (e0 :: corruptPayload rest k p).get? j = some a →
          (corruptPayload rest k p).get? j = some b → entryOk hashFn a b := by
        intro j a b hj ha hb
        have ha2 : (e0 :: rest).get? j = some a := by
          cases j with
          | zero => exact ha
          | succ j2 =>
              have hx : (corruptPayload rest k p).get? j2 = some a := ha
              rw [corrupt_get_lt rest k j2 p (by omega)] at hx
              exact hx
        have hb2 : (e0 :: rest).get? (j + 1) = some b := by
          have hx : (corruptPayload rest k p).get? j = some b := hb
          rw [corrupt_get_lt rest k j p hj] at hx
          exact hx
        exact inv_pair hashFn (e0 :: rest) hchain hhash j a b ha2 hb2
      have hbad : ∀ a b, (e0 :: corruptPayload rest k p).get? k = some a →
          (corruptPayload rest k p).get? k = some b → ¬ entryOk hashFn a b := by
        intro a b _ hb hok
        have hb2 : (corruptPayload rest k p).get? k = some { ek with payload := p } :=
          corrupt_get_self rest k p ek hek
        rw [hb2] at hb
        have hb3 := Option.some.inj hb
        subst hb3
        exact hne ek hek hok.2.symm
      have hfin := aux_some hashFn (corruptPayload rest k p) e0 1 k hk hgood hbad
      rw [hfin]
      congr 1
      omega

/-- Claim C3, corrected: `verifyIntegrity` returns true on any untouched
reachable ledger; corrupting the payload of the entry at any index `i ≥ 1`
(without recomputing downstream hashes, and such that the recomputed digest of
the corrupted entry differs from its stored hash) makes it return false and
report exactly index `i` as the first violation.  The original claim's "every
choice of corrupted entry" fails for index 0: the walk starts at index 1 and
never recomputes the genesis entry's hash (see the counterexample). -/
theorem c3_amended (hashFn : HashInput → String) (s : RegistryState)
    (h : Reach hashFn s) (i : ℕ) (p : Payload) (hi : 1 ≤ i)
    (hlen : i < s.ledger.length)
    (hne : hashFn (hashInput { s.ledger.get ⟨i, hlen⟩ with payload := p })
      ≠ (s.ledger.get ⟨i, hlen⟩).hash) :
    verifyIntegrity hashFn s.ledger = true ∧
    firstViolation hashFn (corruptPayload s.ledger i p) = some i ∧
    verifyIntegrity hashFn (corruptPayload s.ledger i p) = false := by
  obtain ⟨hnemp, hchain, hhash⟩ := reach_inv hashFn s h
  have hne2 : ∀ e, s.ledger.get? i = some e →
      hashFn (hashInput { e with payload := p }) ≠ e.hash := by
    intro e he
    rw [List.get?_eq_get hlen] at he
    have he2 := Option.some.inj he
    subst he2
    exact hne
  have h2 := firstViolation_corrupt hashFn s.ledger i p hchain hhash hi hlen hne2
  refine ⟨verify_of_inv hashFn s ⟨hnemp, hchain, hhash⟩, h2, ?_⟩
  simp [verifyIntegrity, h2]

/-- Accepting the group-less packet on a fresh registry is a successful
`logPhasePacket` step. -/
theorem sNog_step :
    logPhasePacket demoHash "eN" "cN" 1 packetNog snhOk (initState demoHash 0) =
      (sNog, none) := rfl

/-- The two-entry state `sNog` is reachable. -/
theorem sNog_reach : Reach demoHash sNog := Reach.log (Reach.init 0) sNog_step

/-- Witness for C3 (amended): on the concrete reachable two-entry ledger,
verification passes untouched, and corrupting the observation entry's payload
at index 1 is detected exactly there. -/
theorem c3_witness :
    verifyIntegrity demoHash sNog.ledger = true ∧
    firstViolation demoHash (corruptPayload sNog.ledger 1 corruptedPhasePayload) =
      some 1 ∧
    verifyIntegrity demoHash (corruptPayload sNog.ledger 1 corruptedPhasePayload) =
      false :=
  c3_amended demoHash sNog sNog_reach 1 corruptedPhasePayload (by decide) (by decide)
    (by decide)

/-- Counterexample to C3 as stated: on a reachable two-entry ledger, corrupting
the **genesis** entry's payload (a real corruption — the payload differs and
its recomputed digest differs from the stored hash) still leaves
`verifyIntegrity` returning true, because the walk starts at index 1 and never
recomputes the hash of entry 0. -/
theorem c3_counterexample :
    Reach demoHash sNog ∧
    sNog.ledger.length = 2 ∧
    verifyIntegrity demoHash sNog.ledger = true ∧
    corruptedGenesisPayload ≠ genesisPayload ∧
    demoHash (hashInput
      { createGenesisEntry demoHash 0 with payload := corruptedGenesisPayload })
      ≠ (createGenesisEntry demoHash 0).hash ∧
    verifyIntegrity demoHash (corruptPayload sNog.ledger 0 corruptedGenesisPayload) =
      true := by
  refine ⟨sNog_reach, by decide, by decide, ?_, by decide, by decide⟩
  intro hcon
  injection hcon with h1 h2 h3 h4
  exact absurd h1 (by decide)

/-- `validateConsent` accepts exactly the descriptors whose scope intersects
the allow-list named by the spec. -/
theorem validateConsent_iff (snh : SovereignNeurodataHeader) :
    validateConsent snh = true ↔ scopeIntersects snh := by
  unfold validateConsent scopeIntersects
  rw [List.any_eq_true]
  constructor
  · rintro ⟨x, hx, hc⟩
    exact ⟨x, hx, by simpa [allowedScopes] using List.elem_iff.1 hc⟩
  · rintro ⟨x, hx, hor⟩
    exact ⟨x, hx, List.elem_iff.2 (by simpa [allowedScopes] using hor)⟩

/-- Claim C5: recording an observation fails (throws) if and only if the
consent descriptor's classification is raw or its scope does not intersect the
fixed allow-list `{group_resonance_aggregate, research_aggregate}`; on any
such failure the registry state (ledger and both state maps) is unchanged. -/
theorem c5_consent_gate (hashFn : HashInput → String) (eid ceid : String)
    (now : ℕ) (packet : PhasePacket) (snh : SovereignNeurodataHeader)
    (s : RegistryState) :
    ((logPhasePacket hashFn eid ceid now packet snh s).2.isSome = true ↔
      (snh.neurodata_class = NeurodataClass.raw ∨ ¬ scopeIntersects snh)) ∧
    ((logPhasePacket hashFn eid ceid now packet snh s).2.isSome = true →
      (logPhasePacket hashFn eid ceid now packet snh s).1 = s) := by
  by_cases hv : validateConsent snh = true
  · have hs : scopeIntersects snh := (validateConsent_iff snh).1 hv
    by_cases hr : snh.neurodata_class = NeurodataClass.raw
    · exact ⟨by simp [logPhasePacket, hv, hr], fun _ => by simp [logPhasePacket, hv, hr]⟩
    · cases hg : packet.group_id with
      | some gid =>
          refine ⟨by simp [logPhasePacket, hv, hr, hg, hs], fun hcon => ?_⟩
          simp [logPhasePacket, hv, hr, hg] at hcon
      | none =>
          refine ⟨by simp [logPhasePacket, hv, hr, hg, hs], fun hcon => ?_⟩
          simp [logPhasePacket, hv, hr, hg] at hcon
  · have hs : ¬ scopeIntersects snh := fun hsi => hv ((validateConsent_iff snh).2 hsi)
    simp only [Bool.not_eq_true] at hv
    exact ⟨by simp [logPhasePacket, hv, hs], fun _ => by simp [logPhasePacket, hv]⟩

/-- Witness for C5: a raw-classified submission is rejected and the fresh
registry is left unchanged. -/
theorem c5_witness :
    (logPhasePacket demoHash "e" "c" 0 packetNog snhRaw (initState demoHash 0)).2.isSome
      = true ∧
    (logPhasePacket demoHash "e" "c" 0 packetNog snhRaw (initState demoHash 0)).1 =
      initState demoHash 0 := by
  have h := c5_consent_gate demoHash "e" "c" 0 packetNog snhRaw (initState demoHash 0)
  have h1 := h.1.mpr (Or.inl rfl)
  exact ⟨h1, h.2 h1⟩

/-- Claim C8: aggregating when the node-state map is empty (member count
`N = 0`) is a no-op — no coherence entry is appended, no group state is
stored, and no division is attempted: the state is returned unchanged. -/
theorem c8_empty_group_noop (hashFn : HashInput → String) (ceid : String)
    (now : ℕ) (gid : String) (s : RegistryState) (h : s.nodeStates = []) :
    updateGroupCoherence hashFn ceid now gid s = s := by
  simp [updateGroupCoherence, h]

/-- Witness for C8: the freshly constructed registry has an empty node-state
map, and aggregating any group on it returns it unchanged. -/
theorem c8_witness :
    updateGroupCoherence demoHash "c0" 0 "g0" (initState demoHash 0) =
      initState demoHash 0 ∧
    (initState demoHash 0).nodeStates = [] :=
  ⟨c8_empty_group_noop demoHash "c0" 0 "g0" (initState demoHash 0) rfl, rfl⟩

/-- Accepting `packetA` (node A, group G1) on a fresh registry is a successful
`logPhasePacket` step. -/
theorem sG1_step :
    logPhasePacket demoHash "e1" "c1" 1 packetA snhOk (initState demoHash 0) =
      (sG1, none) := rfl

/-- Accepting `packetB` (node B, group G2) on `sG1` is a successful
`logPhasePacket` step. -/
theorem sG2_step :
    logPhasePacket demoHash "e2" "c2" 2 packetB snhOk sG1 = (sG2, none) := rfl

/-- The state `sG2` is reachable. -/
theorem sG2_reach : Reach demoHash sG2 :=
  Reach.log (Reach.log (Reach.init 0) sG1_step) sG2_step

/-- Claim C1, exhibited failure: node A's observation is attributed to group
G1 and node B's to group G2, yet after both are accepted the group state
recomputed and stored for G2 snapshots **both** node states — the member set
is all known nodes, not the nodes attributed to G2 (the source comments "In
real implementation, check if node belongs to group"). -/
theorem c1_group_coherence_unscoped :
    packetA.group_id = some "G1" ∧
    packetB.group_id = some "G2" ∧
    Reach demoHash sG2 ∧
    Option.map (fun gs => gs.node_states.map Prod.fst) (mapGet sG2.groupStates "G2") =
      some ["A", "B"] :=
  ⟨rfl, rfl, sG2_reach, rfl⟩

/-- Claim C4, exhibited failure: the `POST /revoke` handler leaves both the
legacy ledger and the geometric registry exactly as they were — it appends no
`Revocation` entry at all (the claim requires the ledger length to grow by
exactly 1). -/
theorem c4_revoke_appends_nothing (ledger : List LegacyEntry)
    (geo : RegistryState) (req : RevokeRequest) :
    (revokeHandler ledger geo req).1 = ledger ∧
    (revokeHandler ledger geo req).2.1 = geo ∧
    (revokeHandler ledger geo req).1.length = ledger.length := by
  cases hreq : req.revocation_token <;> simp [revokeHandler, hreq]

end Soliton
